import Mathlib

/-!
Shallow embedding of the inventory-ledger subsystem of the
shopify-ordermanagement repository.

Sources embedded here:
* `src/src/services/analyticsService.ts` — `ProductsService.adjustInventory`,
  `ProductsService.getInventoryAdjustments`, `ProductsService.getProductById`
  (available-to-sell aggregation), `ProductsService.getLowStockItems`.
* `src/unnamed/part_000` — the migration creating `inventory_items`,
  `inventory_adjustments`, `inventory_locations` and the views
  `product_inventory_summary` and `low_stock_items`.
* `src/supabase/functions/shopify-products-sync/index.ts` — the direct
  `inventory_items` update/insert performed by the product sync.

Ids are modelled as `Nat` (uuids in the store), integer columns as `Int`
(Postgres `integer` is signed), timestamps as `Nat` ticks. The database
state is a record of lists, one per table; a row's position in the list is
its insertion order.
-/

/-- The closed enumeration accepted by the `adjustment_type` CHECK constraint
on `inventory_adjustments` (migration, `src/unnamed/part_000`). -/
inductive AdjustmentType where
  | received
  | sold
  | damaged
  | returned
  | transfer
  | correction
  | adjustment
deriving DecidableEq, Repr

/-- A row of `products`; only the columns the ledger subsystem reads. -/
structure Product where
  id : Nat
  status : String
deriving DecidableEq, Repr

/-- A row of `product_variants`; only the columns the ledger subsystem reads. -/
structure ProductVariant where
  id : Nat
  product_id : Nat
deriving DecidableEq, Repr

/-- A row of `inventory_locations`. -/
structure InventoryLocation where
  id : Nat
  name : String
  is_default : Bool
  is_active : Bool
deriving DecidableEq, Repr

/-- A row of `inventory_items` (one Quantity Record per (variant, location)).
Column defaults in the migration: the five counters default to `0`,
`reorder_point` to `10`, `reorder_quantity` to `50`. -/
structure InventoryItem where
  variant_id : Nat
  location_id : Nat
  available : Int
  committed : Int
  damaged : Int
  in_transit : Int
  reserved : Int
  reorder_point : Int
  reorder_quantity : Int
  updated_at : Nat
deriving DecidableEq, Repr

/-- A row of `inventory_adjustments` (one Adjustment Ledger Entry); the
columns `adjustInventory` writes, plus the `created_at` the database fills
in. The table's `id` is `gen_random_uuid()` — random, not monotonic — and is
never read by the service, so it is not modelled. -/
structure InventoryAdjustment where
  variant_id : Nat
  location_id : Nat
  adjustment_type : AdjustmentType
  quantity_change : Int
  quantity_before : Int
  quantity_after : Int
  reason : Option String
  notes : Option String
  created_at : Nat
deriving DecidableEq, Repr

/-- The `adjustment` argument object of `ProductsService.adjustInventory`. -/
structure AdjustmentInput where
  adjustment_type : AdjustmentType
  quantity_change : Int
  reason : Option String
  notes : Option String
deriving DecidableEq, Repr

/-- The database state: one list per table, in insertion order. -/
structure Database where
  products : List Product
  variants : List ProductVariant
  locations : List InventoryLocation
  items : List InventoryItem
  adjustments : List InventoryAdjustment
deriving DecidableEq, Repr

instance {ε α : Type} [DecidableEq ε] [DecidableEq α] : DecidableEq (Except ε α) := fun x y =>
  match x, y with
  | .ok a, .ok b =>
    if h : a = b then .isTrue (h ▸ rfl) else .isFalse fun hc => h (Except.ok.inj hc)
  | .error e, .error f =>
    if h : e = f then .isTrue (h ▸ rfl) else .isFalse fun hc => h (Except.error.inj hc)
  | .ok _, .error _ => .isFalse fun hc => Except.noConfusion hc
  | .error _, .ok _ => .isFalse fun hc => Except.noConfusion hc

/-- The `maybeSingle` read of `inventory_items` keyed on
(`variant_id`, `location_id`) that opens `adjustInventory`. -/
def findItem (db : Database) (variantId locationId : Nat) : Option InventoryItem :=
  db.items.find? fun i => i.variant_id == variantId && i.location_id == locationId

/-- `current?.available || 0` from `adjustInventory`: the current record's
`available`, or `0` when no record exists for the pair. -/
def currentAvailable (db : Database) (variantId locationId : Nat) : Int :=
  match findItem db variantId locationId with
  | some i => i.available
  | none => 0

/-- The row the upsert inserts when no record exists for the pair:
`adjustInventory` supplies only the key, `available` and `updated_at`; every
other column takes the migration's default (counters `0`, `reorder_point`
`10`, `reorder_quantity` `50`). -/
def mkDefaultItem (variantId locationId : Nat) (available : Int) (now : Nat) : InventoryItem :=
  { variant_id := variantId
    location_id := locationId
    available := available
    committed := 0
    damaged := 0
    in_transit := 0
    reserved := 0
    reorder_point := 10
    reorder_quantity := 50
    updated_at := now }

/-- Update `available` and `updated_at` on the (single, by the UNIQUE
constraint) row matching the key, leaving every other row untouched. -/
def setAvailFirst (items : List InventoryItem) (variantId locationId : Nat)
    (newAvail : Int) (now : Nat) : List InventoryItem :=
  match items with
  | [] => []
  | i :: rest =>
    if i.variant_id == variantId && i.location_id == locationId then
      { i with available := newAvail, updated_at := now } :: rest
    else
      i :: setAvailFirst rest variantId locationId newAvail now

/-- The `upsert` on `inventory_items`, resolved on the table's
UNIQUE (`variant_id`, `location_id`) key: update the existing row's
`available`/`updated_at`, or insert a fresh row with column defaults. -/
def upsertItem (items : List InventoryItem) (variantId locationId : Nat)
    (newAvail : Int) (now : Nat) : List InventoryItem :=
  if items.any fun i => i.variant_id == variantId && i.location_id == locationId then
    setAvailFirst items variantId locationId newAvail now
  else
    items ++ [mkDefaultItem variantId locationId newAvail now]

/-- `ProductsService.adjustInventory` (`analyticsService.ts`, lines 787–832):
read the current record (absent ↦ 0), compute
`quantityAfter = quantityBefore + quantity_change`, throw
`'Insufficient inventory'` when it is negative — before either write — and
otherwise upsert the record and append the ledger entry. `now` stands for
`new Date()` / the database's `now()`. -/
def adjustInventory (db : Database) (variantId locationId : Nat)
    (adjustment : AdjustmentInput) (now : Nat) : Except String Database :=
  let quantityBefore := currentAvailable db variantId locationId
  let quantityAfter := quantityBefore + adjustment.quantity_change
  if quantityAfter < 0 then
    .error "Insufficient inventory"
  else
    .ok
      { db with
        items := upsertItem db.items variantId locationId quantityAfter now
        adjustments := db.adjustments ++
          [{ variant_id := variantId
             location_id := locationId
             adjustment_type := adjustment.adjustment_type
             quantity_change := adjustment.quantity_change
             quantity_before := quantityBefore
             quantity_after := quantityAfter
             reason := adjustment.reason
             notes := adjustment.notes
             created_at := now }] }

/-- The state a caller observes after `adjustInventory`: on a throw the
exception propagates before either table write, so the database is exactly
the prior one. -/
def adjustInventoryRun (db : Database) (variantId locationId : Nat)
    (adjustment : AdjustmentInput) (now : Nat) : Database :=
  match adjustInventory db variantId locationId adjustment now with
  | .ok db' => db'
  | .error _ => db

/-- One `adjustInventory` call, as issued by some caller. -/
structure AdjCall where
  variantId : Nat
  locationId : Nat
  input : AdjustmentInput
  now : Nat
deriving DecidableEq, Repr

/-- Run a sequence of `adjustInventory` calls; a rejected call leaves the
state unchanged and the sequence continues. -/
def applyCalls (db : Database) : List AdjCall → Database
  | [] => db
  | c :: cs => applyCalls (adjustInventoryRun db c.variantId c.locationId c.input c.now) cs

/-- Every Quantity Record in the database has a non-negative `available`. -/
def NonnegAvailable (db : Database) : Prop :=
  ∀ i ∈ db.items, 0 ≤ i.available

instance (db : Database) : Decidable (NonnegAvailable db) :=
  List.decidableBAll _ db.items

/-- The direct `inventory_items` write performed per variant by the product
sync (`src/supabase/functions/shopify-products-sync/index.ts`, lines
236–275): look up the default location; if a record exists for
(variant, default location) overwrite its `available` (update keyed on the
found row's `id`, i.e. exactly that row), otherwise insert a fresh record
with explicit zero counters and `reorder_point 10` / `reorder_quantity 50`.
No `inventory_adjustments` row is written on either path. -/
def syncVariantInventory (db : Database) (variantId : Nat)
    (inventoryQuantity : Int) (now : Nat) : Database :=
  match db.locations.find? (fun il => il.is_default) with
  | none => db
  | some defaultLocation =>
    if db.items.any fun i => i.variant_id == variantId && i.location_id == defaultLocation.id then
      { db with items := setAvailFirst db.items variantId defaultLocation.id inventoryQuantity now }
    else
      { db with items := db.items ++
          [{ variant_id := variantId
             location_id := defaultLocation.id
             available := inventoryQuantity
             committed := 0
             damaged := 0
             in_transit := 0
             reserved := 0
             reorder_point := 10
             reorder_quantity := 50
             updated_at := now }] }

/-- Newest-first order on ledger entries: `a` precedes `b` when `a` was
created no earlier than `b` (`order by created_at descending`). -/
def createdAtDesc (a b : InventoryAdjustment) : Prop :=
  b.created_at ≤ a.created_at

instance : DecidableRel createdAtDesc := fun a b =>
  Nat.decLe b.created_at a.created_at

instance : IsTotal InventoryAdjustment createdAtDesc :=
  ⟨fun a b => Nat.le_total b.created_at a.created_at⟩

instance : IsTrans InventoryAdjustment createdAtDesc :=
  ⟨fun _ _ _ hab hbc => Nat.le_trans hbc hab⟩

/-- `ProductsService.getInventoryAdjustments` (`analyticsService.ts`,
lines 845–855): all ledger rows of the variant, ordered by `created_at`
descending, truncated to `limit` (default 50). The query names no secondary
sort key; the model realises the database's row order among equal
timestamps with a stable sort. -/
def getInventoryAdjustments (db : Database) (variantId : Nat)
    (limit : Nat := 50) : List InventoryAdjustment :=
  (((db.adjustments.filter fun a => a.variant_id == variantId).insertionSort
      createdAtDesc).take limit)

/-- The `available_to_sell` column of the `product_inventory_summary` view
for one variant: `COALESCE(SUM(ii.available), 0) - COALESCE(SUM(ii.committed), 0)`
over the variant's `inventory_items` rows — joined on `variant_id` alone,
with no join against `inventory_locations`. -/
def available_to_sell (db : Database) (variantId : Nat) : Int :=
  ((db.items.filter fun i => i.variant_id == variantId).map (·.available)).sum
    - ((db.items.filter fun i => i.variant_id == variantId).map (·.committed)).sum

/-- Whether the item's location row exists and is active. -/
def itemLocationActive (db : Database) (i : InventoryItem) : Bool :=
  match db.locations.find? (fun il => il.id == i.location_id) with
  | none => false
  | some il => il.is_active

/-- Written to the spec's words, for comparison with `available_to_sell`:
the sum of `available - committed` over the variant's records at active
locations only. -/
def availableToSellActiveSpec (db : Database) (variantId : Nat) : Int :=
  ((db.items.filter fun i =>
      i.variant_id == variantId && itemLocationActive db i).map
    (fun i => i.available - i.committed)).sum

/-- The `status` of the product owning the item's variant, following the
view's joins `product_variants.id = ii.variant_id` and
`products.id = pv.product_id`. -/
def ownerProductStatus (db : Database) (i : InventoryItem) : Option String :=
  match db.variants.find? (fun pv => pv.id == i.variant_id) with
  | none => none
  | some pv => (db.products.find? fun p => p.id == pv.product_id).map (·.status)

/-- The WHERE clause of the `low_stock_items` view on one `inventory_items`
row: `available <= reorder_point`, owning product `status = 'active'`,
location `is_active = true` (the three INNER JOINs resolve against the
unique primary keys). -/
def lowStockMatch (db : Database) (i : InventoryItem) : Bool :=
  decide (i.available ≤ i.reorder_point)
    && (ownerProductStatus db i == some "active")
    && itemLocationActive db i

/-- Ascending order on `available` (`order by ii.available asc`). -/
def availLE (a b : InventoryItem) : Prop :=
  a.available ≤ b.available

instance : DecidableRel availLE := fun a b =>
  Int.decLe a.available b.available

instance : IsTotal InventoryItem availLE :=
  ⟨fun a b => Int.le_total a.available b.available⟩

instance : IsTrans InventoryItem availLE :=
  ⟨fun _ _ _ hab hbc => Int.le_trans hab hbc⟩

/-- The `low_stock_items` view (migration, `src/unnamed/part_000`, lines
288–308), projected onto its underlying `inventory_items` rows: the rows
passing the WHERE clause, ordered by `available` ascending.
`ProductsService.getLowStockItems` selects this view unchanged. -/
def low_stock_items (db : Database) : List InventoryItem :=
  (db.items.filter (lowStockMatch db)).insertionSort availLE

/-- The ledger entry `adjustInventory` inserts for a given call, given the
pre-update `available`. -/
def mkEntry (variantId locationId : Nat) (a : AdjustmentInput)
    (quantityBefore : Int) (now : Nat) : InventoryAdjustment :=
  { variant_id := variantId
    location_id := locationId
    adjustment_type := a.adjustment_type
    quantity_change := a.quantity_change
    quantity_before := quantityBefore
    quantity_after := quantityBefore + a.quantity_change
    reason := a.reason
    notes := a.notes
    created_at := now }

lemma adjustInventory_eq_ite (db : Database) (v l : Nat) (a : AdjustmentInput) (now : Nat) :
    adjustInventory db v l a now =
      if currentAvailable db v l + a.quantity_change < 0 then
        .error "Insufficient inventory"
      else
        .ok { db with
              items := upsertItem db.items v l (currentAvailable db v l + a.quantity_change) now
              adjustments := db.adjustments ++ [mkEntry v l a (currentAvailable db v l) now] } := by
  rfl

lemma adjust_ok_iff {db : Database} {v l : Nat} {a : AdjustmentInput} {now : Nat}
    {db' : Database} :
    adjustInventory db v l a now = .ok db' ↔
      0 ≤ currentAvailable db v l + a.quantity_change ∧
      db' = { db with
              items := upsertItem db.items v l (currentAvailable db v l + a.quantity_change) now
              adjustments := db.adjustments ++ [mkEntry v l a (currentAvailable db v l) now] } := by
  rw [adjustInventory_eq_ite]
  split_ifs with h
  · constructor
    · intro hc; exact absurd hc (by simp)
    · intro ⟨h0, _⟩; omega
  · constructor
    · intro hc; exact ⟨by omega, (Except.ok.inj hc).symm⟩
    · intro ⟨_, hdb⟩; rw [hdb]

lemma adjust_error_iff {db : Database} {v l : Nat} {a : AdjustmentInput} {now : Nat}
    {e : String} :
    adjustInventory db v l a now = .error e ↔
      currentAvailable db v l + a.quantity_change < 0 ∧ e = "Insufficient inventory" := by
  rw [adjustInventory_eq_ite]
  split_ifs with h
  · constructor
    · intro hc; exact ⟨h, (Except.error.inj hc).symm⟩
    · intro ⟨_, he⟩; rw [he]
  · constructor
    · intro hc; exact absurd hc (by simp)
    · intro ⟨h0, _⟩; omega

lemma mem_setAvailFirst {items : List InventoryItem} {v l : Nat} {q : Int} {t : Nat}
    {j : InventoryItem} (hj : j ∈ setAvailFirst items v l q t) :
    j ∈ items ∨ j.available = q := by
  induction items with
  | nil => simp [setAvailFirst] at hj
  | cons i rest ih =>
    rw [setAvailFirst] at hj
    split_ifs at hj with hi
    · rcases List.mem_cons.1 hj with hj | hj
      · right; rw [hj]
      · left; exact List.mem_cons_of_mem _ hj
    · rcases List.mem_cons.1 hj with hj | hj
      · left; rw [hj]; exact List.mem_cons_self _ _
      · rcases ih hj with hmem | hav
        · left; exact List.mem_cons_of_mem _ hmem
        · right; exact hav

lemma mem_upsertItem {items : List InventoryItem} {v l : Nat} {q : Int} {t : Nat}
    {j : InventoryItem} (hj : j ∈ upsertItem items v l q t) :
    j ∈ items ∨ j.available = q := by
  rw [upsertItem] at hj
  split_ifs at hj
  · exact mem_setAvailFirst hj
  · rcases List.mem_append.1 hj with h | h
    · exact .inl h
    · right
      rw [List.mem_singleton.1 h]
      rfl

lemma find?_setAvailFirst {items : List InventoryItem} {v l : Nat} {q : Int} {t : Nat}
    (hex : (items.any fun i => i.variant_id == v && i.location_id == l) = true) :
    ∃ r, (setAvailFirst items v l q t).find?
          (fun i => i.variant_id == v && i.location_id == l) = some r ∧
      r.available = q := by
  induction items with
  | nil => simp at hex
  | cons i rest ih =>
    by_cases hi : (i.variant_id == v && i.location_id == l) = true
    · refine ⟨{ i with available := q, updated_at := t }, ?_, rfl⟩
      rw [setAvailFirst, if_pos hi]
      exact List.find?_cons_of_pos _ hi
    · have hex' : (rest.any fun i => i.variant_id == v && i.location_id == l) = true := by
        rcases List.any_eq_true.1 hex with ⟨x, hx, hpx⟩
        rcases List.mem_cons.1 hx with hx | hx
        · exact absurd (hx ▸ hpx) hi
        · exact List.any_eq_true.2 ⟨x, hx, hpx⟩
      obtain ⟨r, hr, hq⟩ := ih hex'
      refine ⟨r, ?_, hq⟩
      rw [setAvailFirst, if_neg hi]
      exact (List.find?_cons_of_neg
        (p := fun j : InventoryItem => j.variant_id == v && j.location_id == l) _ hi).trans hr

lemma find?_append_default {items : List InventoryItem} {v l : Nat} {q : Int} {t : Nat}
    (hex : (items.any fun i => i.variant_id == v && i.location_id == l) = false) :
    (items ++ [mkDefaultItem v l q t]).find?
        (fun i => i.variant_id == v && i.location_id == l) = some (mkDefaultItem v l q t) := by
  induction items with
  | nil =>
    apply List.find?_cons_of_pos
    simp [mkDefaultItem]
  | cons i rest ih =>
    have hi : ¬ (i.variant_id == v && i.location_id == l) = true := by
      have := List.any_eq_false.1 hex i (List.mem_cons_self _ _)
      simpa using this
    have hex' : (rest.any fun i => i.variant_id == v && i.location_id == l) = false := by
      refine List.any_eq_false.2 fun x hx => ?_
      exact List.any_eq_false.1 hex x (List.mem_cons_of_mem _ hx)
    rw [List.cons_append]
    exact (List.find?_cons_of_neg
      (p := fun j : InventoryItem => j.variant_id == v && j.location_id == l) _ hi).trans (ih hex')

lemma find?_upsertItem (items : List InventoryItem) (v l : Nat) (q : Int) (t : Nat) :
    ∃ r, (upsertItem items v l q t).find?
          (fun i => i.variant_id == v && i.location_id == l) = some r ∧
      r.available = q := by
  rw [upsertItem]
  split_ifs with hex
  · exact find?_setAvailFirst hex
  · exact ⟨mkDefaultItem v l q t,
      find?_append_default (Bool.of_not_eq_true hex), rfl⟩

lemma upsertItem_of_absent {items : List InventoryItem} {v l : Nat} (q : Int) (t : Nat)
    (habs : items.find? (fun i => i.variant_id == v && i.location_id == l) = none) :
    upsertItem items v l q t = items ++ [mkDefaultItem v l q t] := by
  rw [upsertItem, if_neg]
  rw [List.any_eq_true]
  push_neg
  intro x hx
  simpa using List.find?_eq_none.1 habs x hx

lemma sum_map_sub_int (l : List InventoryItem) (f g : InventoryItem → Int) :
    (l.map fun i => f i - g i).sum = (l.map f).sum - (l.map g).sum := by
  induction l with
  | nil => simp
  | cons i rest ih =>
    simp only [List.map_cons, List.sum_cons, ih]
    ring

lemma nonneg_adjustInventoryRun {db : Database} (h : NonnegAvailable db)
    (v l : Nat) (a : AdjustmentInput) (now : Nat) :
    NonnegAvailable (adjustInventoryRun db v l a now) := by
  rw [adjustInventoryRun]
  cases hE : adjustInventory db v l a now with
  | error e => exact h
  | ok db' =>
    obtain ⟨hq, rfl⟩ := adjust_ok_iff.1 hE
    intro j hj
    rcases mem_upsertItem hj with hmem | hav
    · exact h j hmem
    · rw [hav]; exact hq

/-- Claim C1: starting from any state whose Quantity Records all have
non-negative `available` (in particular all-zero records), every sequence of
`adjustInventory` calls keeps `available ≥ 0` in every record, and no single
successful call produces a state with a negative `available`. -/
theorem c1_available_nonneg (db : Database) (h : NonnegAvailable db) :
    (∀ calls : List AdjCall, NonnegAvailable (applyCalls db calls)) ∧
    (∀ (v l : Nat) (a : AdjustmentInput) (now : Nat) (db' : Database),
      adjustInventory db v l a now = .ok db' → NonnegAvailable db') := by
  constructor
  · intro calls
    induction calls generalizing db with
    | nil => exact h
    | cons c cs ih => exact ih _ (nonneg_adjustInventoryRun h _ _ _ _)
  · intro v l a now db' hE
    have hrun := nonneg_adjustInventoryRun h v l a now
    rwa [adjustInventoryRun, hE] at hrun

/-- All-zero record for variant 1 at location 1, then a mixed sequence of
receipts and sales, one of which is rejected. -/
def dbC1 : Database := ⟨[], [], [], [mkDefaultItem 1 1 0 0], []⟩

def callsC1 : List AdjCall :=
  [⟨1, 1, ⟨.received, 50, none, none⟩, 1⟩,
   ⟨1, 1, ⟨.sold, -60, none, none⟩, 2⟩,
   ⟨1, 1, ⟨.sold, -20, none, none⟩, 3⟩,
   ⟨2, 1, ⟨.adjustment, -1, none, none⟩, 4⟩]

theorem c1_available_nonneg_witness :
    NonnegAvailable dbC1 ∧ NonnegAvailable (applyCalls dbC1 callsC1) :=
  ⟨by decide, (c1_available_nonneg dbC1 (by decide)).1 callsC1⟩

/-- Claim C2: a delta that would drive `available` below zero makes
`adjustInventory` throw `'Insufficient inventory'`, and the caller-observed
state is exactly the prior one — the throw happens before the record upsert
and before the ledger insert, so neither table changes. -/
theorem c2_insufficient_rejected (db : Database) (v l : Nat) (a : AdjustmentInput)
    (now : Nat) (h : currentAvailable db v l + a.quantity_change < 0) :
    adjustInventory db v l a now = .error "Insufficient inventory" ∧
    adjustInventoryRun db v l a now = db := by
  have hE : adjustInventory db v l a now = .error "Insufficient inventory" :=
    adjust_error_iff.2 ⟨h, rfl⟩
  refine ⟨hE, ?_⟩
  rw [adjustInventoryRun, hE]

/-- Record at `available = 50` (the spec's second example scenario). -/
def dbC2 : Database := ⟨[], [], [], [mkDefaultItem 1 1 50 0], []⟩

theorem c2_insufficient_rejected_witness :
    currentAvailable dbC2 1 1 + (-60 : Int) < 0 ∧
    adjustInventory dbC2 1 1 ⟨.sold, -60, none, none⟩ 3 = .error "Insufficient inventory" ∧
    adjustInventoryRun dbC2 1 1 ⟨.sold, -60, none, none⟩ 3 = dbC2 :=
  ⟨by decide, c2_insufficient_rejected dbC2 1 1 ⟨.sold, -60, none, none⟩ 3 (by decide)⟩

/-- Claim C3: a successful `adjustInventory` appends exactly one ledger
entry; its `quantity_before` is the record's `available` immediately before
the update, its `quantity_after` is the record's `available` immediately
after (the record found for the pair in the new state carries exactly that
value), and `quantity_after - quantity_before` is the supplied
`quantity_change`. -/
theorem c3_ledger_pairing (db : Database) (v l : Nat) (a : AdjustmentInput)
    (now : Nat) (db' : Database) (h : adjustInventory db v l a now = .ok db') :
    ∃ e r, db'.adjustments = db.adjustments ++ [e] ∧
      e.quantity_before = currentAvailable db v l ∧
      e.quantity_change = a.quantity_change ∧
      e.quantity_after - e.quantity_before = a.quantity_change ∧
      findItem db' v l = some r ∧
      r.available = e.quantity_after := by
  obtain ⟨hq, rfl⟩ := adjust_ok_iff.1 h
  obtain ⟨r, hr, hav⟩ := find?_upsertItem db.items v l
    (currentAvailable db v l + a.quantity_change) now
  exact ⟨mkEntry v l a (currentAvailable db v l) now, r, rfl, rfl, rfl,
    add_sub_cancel_left _ _, hr, hav⟩

/-- Record at `available = 50`, sold 50 (the spec's third example scenario). -/
def dbC3 : Database := ⟨[], [], [], [mkDefaultItem 1 1 50 0], []⟩

def dbC3' : Database :=
  ⟨[], [], [], [{ mkDefaultItem 1 1 50 0 with available := 0, updated_at := 7 }],
   [⟨1, 1, .sold, -50, 50, 0, none, none, 7⟩]⟩

theorem c3_ledger_pairing_witness :
    adjustInventory dbC3 1 1 ⟨.sold, -50, none, none⟩ 7 = .ok dbC3' ∧
    (∃ e r, dbC3'.adjustments = dbC3.adjustments ++ [e] ∧
      e.quantity_before = currentAvailable dbC3 1 1 ∧
      e.quantity_change = (-50 : Int) ∧
      e.quantity_after - e.quantity_before = (-50 : Int) ∧
      findItem dbC3' 1 1 = some r ∧
      r.available = e.quantity_after) :=
  ⟨by decide, c3_ledger_pairing dbC3 1 1 ⟨.sold, -50, none, none⟩ 7 dbC3' (by decide)⟩

/-- Default location 1 holding variant 1 at `available = 5`; the ledger is
empty. Used to exercise the product sync's direct write. -/
def dbC4 : Database :=
  ⟨[], [], [⟨1, "Main Warehouse", true, true⟩], [mkDefaultItem 1 1 5 0], []⟩

/-- The state after a successful manual adjustment of +5 on `dbC4`. -/
def dbC4ok : Database :=
  ⟨[], [], [⟨1, "Main Warehouse", true, true⟩],
   [{ mkDefaultItem 1 1 5 0 with available := 10, updated_at := 9 }],
   [⟨1, 1, .received, 5, 5, 10, none, none, 9⟩]⟩

/-- Claim C4 is false on the code: the product sync mutates a Quantity
Record (variant 1's `available` goes from 5 to 9) while the adjustment
ledger stays empty — the mutation is not paired with any ledger entry, so
the Ledger Service is not the sole mutator. -/
theorem c4_sole_mutator_counterexample :
    currentAvailable (syncVariantInventory dbC4 1 9 7) 1 1 = 9 ∧
    currentAvailable dbC4 1 1 = 5 ∧
    (syncVariantInventory dbC4 1 9 7).adjustments = dbC4.adjustments ∧
    (syncVariantInventory dbC4 1 9 7).adjustments.length = 0 := by decide

/-- Claim C4 amended: `adjustInventory` does pair each of its record
mutations with exactly one ledger entry, but it is not the sole mutator —
the product sync collaborator writes Quantity Records directly and never
writes a ledger entry. -/
theorem c4_sole_mutator_amended (db : Database) :
    (∀ (v l : Nat) (a : AdjustmentInput) (now : Nat) (db' : Database),
      adjustInventory db v l a now = .ok db' →
        db'.adjustments = db.adjustments ++ [mkEntry v l a (currentAvailable db v l) now]) ∧
    (∀ (v : Nat) (q : Int) (now : Nat),
      (syncVariantInventory db v q now).adjustments = db.adjustments) := by
  constructor
  · intro v l a now db' hE
    obtain ⟨_, rfl⟩ := adjust_ok_iff.1 hE
    rfl
  · intro v q now
    rw [syncVariantInventory]
    cases db.locations.find? (fun il => il.is_default) with
    | none => rfl
    | some defaultLocation =>
      dsimp only
      split_ifs <;> rfl

theorem c4_sole_mutator_amended_witness :
    (syncVariantInventory dbC4 1 9 7).adjustments = dbC4.adjustments ∧
    dbC4ok.adjustments = dbC4.adjustments ++ [mkEntry 1 1 ⟨.received, 5, none, none⟩ (currentAvailable dbC4 1 1) 9] :=
  ⟨(c4_sole_mutator_amended dbC4).2 1 9 7,
   (c4_sole_mutator_amended dbC4).1 1 1 ⟨.received, 5, none, none⟩ 9 dbC4ok (by decide)⟩

/-- Claim C5: if no record exists for the pair, `adjustInventory`
materializes one with all counters zero and applies the delta to it: a first
adjustment of `+n` succeeds, leaves `available = n`, and appends a ledger
entry `{before := 0, after := n}`; a first adjustment with a negative delta
is rejected with the insufficient-inventory error. -/
theorem c5_lazy_create (db : Database) (v l : Nat) (t : AdjustmentType)
    (n : Int) (now : Nat) (habs : findItem db v l = none) :
    (0 ≤ n → adjustInventory db v l ⟨t, n, none, none⟩ now =
      .ok { db with
            items := db.items ++ [mkDefaultItem v l n now]
            adjustments := db.adjustments ++ [⟨v, l, t, n, 0, n, none, none, now⟩] }) ∧
    (n < 0 → adjustInventory db v l ⟨t, n, none, none⟩ now =
      .error "Insufficient inventory") := by
  have hcur : currentAvailable db v l = 0 := by
    rw [currentAvailable, habs]
  constructor
  · intro hn
    rw [adjust_ok_iff]
    refine ⟨by rw [hcur]; simpa using hn, ?_⟩
    rw [hcur]
    rw [upsertItem_of_absent _ _ habs]
    simp [mkEntry, zero_add]
  · intro hn
    rw [adjust_error_iff]
    refine ⟨?_, rfl⟩
    rw [hcur]
    simpa using hn

/-- Empty database: no record exists for any pair. -/
def dbC5 : Database := ⟨[], [], [], [], []⟩

theorem c5_lazy_create_witness :
    findItem dbC5 1 1 = none ∧ (0 : Int) ≤ 50 ∧
    adjustInventory dbC5 1 1 ⟨.received, 50, none, none⟩ 3 =
      .ok { dbC5 with
            items := dbC5.items ++ [mkDefaultItem 1 1 50 3]
            adjustments := dbC5.adjustments ++ [⟨1, 1, .received, 50, 0, 50, none, none, 3⟩] } :=
  ⟨by decide, by decide,
   (c5_lazy_create dbC5 1 1 .received 50 3 (by decide)).1 (by decide)⟩

/-- A database whose only location (id 9) is inactive and whose variants
table does not contain variant 1 at all, yet holding a Quantity Record for
(variant 1, location 9) with `available = 5`. -/
def dbC6 : Database :=
  ⟨[], [], [⟨9, "Old Warehouse", false, false⟩], [mkDefaultItem 1 9 5 0], []⟩

/-- Claim C6 is false on the code: `adjustInventory` contains no existence
or activity check. A call that references a variant absent from
`product_variants` and targets an inactive location is applied normally
instead of failing with `NotFound` or being rejected with
`InactiveLocation`. -/
theorem c6_validation_counterexample :
    (dbC6.locations.find? fun il => il.id == 9) = some ⟨9, "Old Warehouse", false, false⟩ ∧
    (dbC6.variants.find? fun pv => pv.id == 1) = none ∧
    adjustInventory dbC6 1 9 ⟨.sold, -3, none, none⟩ 5 =
      .ok ⟨[], [], [⟨9, "Old Warehouse", false, false⟩],
           [{ mkDefaultItem 1 9 5 0 with available := 2, updated_at := 5 }],
           [⟨1, 9, .sold, -3, 5, 2, none, none, 5⟩]⟩ := by decide

/-- Claim C6 amended: `adjustInventory` performs no validation of the
referenced variant or location — no `NotFound`, no `InactiveLocation`. Any
call whose resulting `available` is non-negative succeeds, regardless of
whether the variant or location exists or the location is active, and the
only failure it can surface is `'Insufficient inventory'`. -/
theorem c6_no_validation_amended (db : Database) (v l : Nat) (a : AdjustmentInput)
    (now : Nat) :
    (0 ≤ currentAvailable db v l + a.quantity_change →
      adjustInventory db v l a now =
        .ok { db with
              items := upsertItem db.items v l (currentAvailable db v l + a.quantity_change) now
              adjustments := db.adjustments ++ [mkEntry v l a (currentAvailable db v l) now] }) ∧
    (∀ e : String, adjustInventory db v l a now = .error e →
      e = "Insufficient inventory" ∧ currentAvailable db v l + a.quantity_change < 0) := by
  constructor
  · intro h0
    exact adjust_ok_iff.2 ⟨h0, rfl⟩
  · intro e hE
    obtain ⟨hlt, he⟩ := adjust_error_iff.1 hE
    exact ⟨he, hlt⟩

theorem c6_no_validation_amended_witness :
    (0 : Int) ≤ currentAvailable dbC6 1 9 + (-3 : Int) ∧
    adjustInventory dbC6 1 9 ⟨.sold, -3, none, none⟩ 5 =
      .ok { dbC6 with
            items := upsertItem dbC6.items 1 9 (currentAvailable dbC6 1 9 + (-3 : Int)) 5
            adjustments := dbC6.adjustments ++ [mkEntry 1 9 ⟨.sold, -3, none, none⟩ (currentAvailable dbC6 1 9) 5] } :=
  ⟨by decide,
   (c6_no_validation_amended dbC6 1 9 ⟨.sold, -3, none, none⟩ 5).1 (by decide)⟩

/-- Two ledger entries for variant 1, at two different locations. -/
def eC7a : InventoryAdjustment := ⟨1, 1, .received, 5, 0, 5, none, none, 1⟩

def eC7b : InventoryAdjustment := ⟨1, 2, .received, 4, 0, 4, none, none, 2⟩

def dbC7 : Database := ⟨[], [], [], [], [eC7a, eC7b]⟩

/-- Claim C7 is false on the code: `getInventoryAdjustments` accepts no
`locationId` argument and applies no location filter — for variant 1 it
returns the entries of location 2 and location 1 together, so the result is
never "restricted to the given location". (The query also names no
secondary sort key; the table's uuid `id` is random, not monotonic.) -/
theorem c7_history_counterexample :
    getInventoryAdjustments dbC7 1 50 = [eC7b, eC7a] ∧
    eC7b.location_id = 2 ∧ eC7a.location_id = 1 := by decide

/-- Claim C7 amended: `getInventoryAdjustments(variantId, limit = 50)` takes
no `locationId` and never filters by location; it returns at most `limit` of
the variant's ledger entries ordered by `created_at` descending, with no
requested tie-break key (the model realises ties in the stable insertion
order the database happens to return). -/
theorem c7_history_amended (db : Database) (variantId limit : Nat) :
    (getInventoryAdjustments db variantId limit).length ≤ limit ∧
    (∀ a ∈ getInventoryAdjustments db variantId limit, a.variant_id = variantId) ∧
    List.Sorted createdAtDesc (getInventoryAdjustments db variantId limit) := by
  refine ⟨?_, ?_, ?_⟩
  · rw [getInventoryAdjustments, List.length_take]
    exact Nat.min_le_left _ _
  · intro a ha
    rw [getInventoryAdjustments] at ha
    have hmem := List.take_subset _ _ ha
    rw [List.mem_insertionSort] at hmem
    have := (List.mem_filter.1 hmem).2
    simpa using this
  · rw [getInventoryAdjustments]
    exact List.Pairwise.sublist (List.take_sublist _ _)
      (List.sorted_insertionSort createdAtDesc _)

theorem c7_history_amended_witness :
    eC7b.variant_id = 1 ∧ (getInventoryAdjustments dbC7 1 50).length ≤ 50 :=
  ⟨(c7_history_amended dbC7 1 50).2.1 eC7b (by decide),
   (c7_history_amended dbC7 1 50).1⟩

/-- Variant 1 stocked at active location 1 (`available 10`, `committed 2`)
and inactive location 2 (`available 7`, `committed 0`). -/
def dbC8 : Database :=
  ⟨[], [],
   [⟨1, "Main Warehouse", true, true⟩, ⟨2, "Closed Warehouse", false, false⟩],
   [⟨1, 1, 10, 2, 0, 0, 0, 10, 50, 0⟩, ⟨1, 2, 7, 0, 0, 0, 0, 10, 50, 0⟩], []⟩

/-- Claim C8 is false on the code: the `product_inventory_summary` view
joins `inventory_items` on `variant_id` alone, with no join against
`inventory_locations`, so the record at the inactive location 2 is counted:
the view reports 15 where the active-locations sum is 8. -/
theorem c8_available_to_sell_counterexample :
    available_to_sell dbC8 1 = 15 ∧
    availableToSellActiveSpec dbC8 1 = 8 ∧
    ¬ available_to_sell dbC8 1 = availableToSellActiveSpec dbC8 1 := by decide

/-- Claim C8 amended: `available_to_sell` equals the sum of
`available - committed` over ALL of the variant's Quantity Records,
regardless of the activity (or existence) of their locations; inactive
locations are not excluded. -/
theorem c8_available_to_sell_amended (db : Database) (variantId : Nat) :
    available_to_sell db variantId =
      ((db.items.filter fun i => i.variant_id == variantId).map
        fun i => i.available - i.committed).sum := by
  rw [available_to_sell, sum_map_sub_int]

/-- Claim C9: `low_stock_items` holds exactly the Quantity Records with
`available ≤ reorder_point` whose owning product has status `'active'` and
whose location exists and is active, ordered by `available` ascending (most
depleted first). -/
theorem c9_low_stock (db : Database) :
    (∀ i : InventoryItem, i ∈ low_stock_items db ↔
      i ∈ db.items ∧ i.available ≤ i.reorder_point ∧
      ownerProductStatus db i = some "active" ∧ itemLocationActive db i = true) ∧
    List.Sorted availLE (low_stock_items db) := by
  constructor
  · intro i
    rw [low_stock_items, List.mem_insertionSort, List.mem_filter]
    constructor
    · rintro ⟨hmem, hp⟩
      rw [lowStockMatch] at hp
      simp only [Bool.and_eq_true, decide_eq_true_eq] at hp
      obtain ⟨⟨h1, h2⟩, h3⟩ := hp
      exact ⟨hmem, h1, by simpa using h2, h3⟩
    · rintro ⟨hmem, h1, h2, h3⟩
      refine ⟨hmem, ?_⟩
      rw [lowStockMatch]
      simp only [Bool.and_eq_true, decide_eq_true_eq]
      exact ⟨⟨h1, by simp [h2]⟩, h3⟩
  · exact List.sorted_insertionSort availLE _

/-- The spec's fourth example scenario: variant 1 of an active product,
stocked at two active locations, `available = 10` and `available = 5`, both
with `reorder_point = 10`. -/
def iC9a : InventoryItem := ⟨1, 1, 10, 0, 0, 0, 0, 10, 50, 0⟩

def iC9b : InventoryItem := ⟨1, 2, 5, 0, 0, 0, 0, 10, 50, 0⟩

def dbC9 : Database :=
  ⟨[⟨1, "active"⟩], [⟨1, 1⟩],
   [⟨1, "L1", true, true⟩, ⟨2, "L2", false, true⟩],
   [iC9a, iC9b], []⟩

theorem c9_low_stock_witness :
    iC9b ∈ low_stock_items dbC9 ∧ low_stock_items dbC9 = [iC9b, iC9a] :=
  ⟨((c9_low_stock dbC9).1 iC9b).mpr ⟨by decide, by decide, by decide, by decide⟩,
   by decide⟩

lemma any_eq_false_of_find?_none {items : List InventoryItem} {v l : Nat}
    (habs : items.find? (fun i => i.variant_id == v && i.location_id == l) = none) :
    (items.any fun i => i.variant_id == v && i.location_id == l) = false := by
  rw [List.any_eq_false]
  intro x hx
  simpa using List.find?_eq_none.1 habs x hx

/-- Claim C10: the record materialized by the first `adjustInventory` for a
pair has zero `committed`/`damaged`/`in_transit`/`reserved` but the schema
defaults `reorder_point = 10` and `reorder_quantity = 50`, so — when its
variant belongs to an active product at an active location — it is reported
by `low_stock_items` whenever its `available` is at most 10. -/
theorem c10_lazy_defaults (db : Database) (v l : Nat) (t : AdjustmentType)
    (n : Int) (now : Nat) (db' : Database)
    (habs : findItem db v l = none)
    (hok : adjustInventory db v l ⟨t, n, none, none⟩ now = .ok db') :
    ∃ r, findItem db' v l = some r ∧
      r.committed = 0 ∧ r.damaged = 0 ∧ r.in_transit = 0 ∧ r.reserved = 0 ∧
      r.reorder_point = 10 ∧ r.reorder_quantity = 50 ∧ r.available = n ∧
      (ownerProductStatus db' r = some "active" → itemLocationActive db' r = true →
        r.available ≤ 10 → r ∈ low_stock_items db') := by
  have hcur : currentAvailable db v l = 0 := by rw [currentAvailable, habs]
  obtain ⟨hq, hdb⟩ := adjust_ok_iff.1 hok
  rw [hcur, upsertItem_of_absent _ _ habs] at hdb
  simp only [mkEntry, zero_add] at hdb
  subst hdb
  refine ⟨mkDefaultItem v l n now, ?_, rfl, rfl, rfl, rfl, rfl, rfl, rfl, ?_⟩
  · exact find?_append_default (any_eq_false_of_find?_none habs)
  · intro hps hla hav
    rw [low_stock_items, List.mem_insertionSort, List.mem_filter]
    refine ⟨List.mem_append.2 (.inr (List.mem_singleton.2 rfl)), ?_⟩
    rw [lowStockMatch]
    simp only [Bool.and_eq_true, decide_eq_true_eq]
    exact ⟨⟨hav, by simp [hps]⟩, hla⟩

/-- Active product 1 with variant 1, one active location, no records yet. -/
def dbC10 : Database :=
  ⟨[⟨1, "active"⟩], [⟨1, 1⟩], [⟨1, "Main Warehouse", true, true⟩], [], []⟩

/-- The state after the first adjustment of +3 on `dbC10`. -/
def dbC10' : Database :=
  ⟨[⟨1, "active"⟩], [⟨1, 1⟩], [⟨1, "Main Warehouse", true, true⟩],
   [mkDefaultItem 1 1 3 2], [⟨1, 1, .received, 3, 0, 3, none, none, 2⟩]⟩

theorem c10_lazy_defaults_witness :
    findItem dbC10 1 1 = none ∧
    adjustInventory dbC10 1 1 ⟨.received, 3, none, none⟩ 2 = .ok dbC10' ∧
    (∃ r, findItem dbC10' 1 1 = some r ∧
      r.committed = 0 ∧ r.damaged = 0 ∧ r.in_transit = 0 ∧ r.reserved = 0 ∧
      r.reorder_point = 10 ∧ r.reorder_quantity = 50 ∧ r.available = 3 ∧
      (ownerProductStatus dbC10' r = some "active" → itemLocationActive dbC10' r = true →
        r.available ≤ 10 → r ∈ low_stock_items dbC10')) :=
  ⟨by decide, by decide,
   c10_lazy_defaults dbC10 1 1 .received 3 2 dbC10' (by decide) (by decide)⟩
